import Mathlib

/-!
Verification of the staged-computation cache, frozen-pass accumulation,
structured-store cropping and incremental 4-D write, and virtual-dataset
stitching of the prismatic repository, shallowly embedded from
`src/Qt/prism_qthreads.cpp` and `src/src/fileIO.cpp`.
-/

namespace StageCache

/-- Simulation metadata, the cache key.  Only the fields the cache logic
touches are distinguished; every remaining parameter influencing a stage is
folded into `otherParams`.  Cache validity is structural equality, matching
the `params.meta == *(this->parent->getMetadata())` comparison. -/
structure Metadata where
  randomSeed : Nat
  fpNum : Nat
  otherParams : Nat
  deriving DecidableEq, Repr

/-- Cache state held by the main window: the potential-stage readiness flag
(`potentialIsReady`), the S-matrix readiness flag (`ScompactReady`), the
stored parameters' metadata (`parent->pars.meta` / `getMetadata()`), and the
stored potential artifact (`parent->pars.pot`). -/
structure CacheState where
  potentialReady : Bool
  scompactReady : Bool
  storedMeta : Metadata
  storedPot : Int
  deriving DecidableEq, Repr

/-- Result of one decide-or-recompute step: the updated cache state, the
artifact handed to the caller, and how many times the stage kernel ran. -/
structure StageResult where
  state : CacheState
  artifact : Int
  kernelCalls : Nat
  deriving DecidableEq, Repr

/-- One potential-stage decide-or-recompute step, embedding
`prism_qthreads.cpp` lines 354-371 (same shape at lines 81-112 and 492-509):
if the readiness flag is set and the thread's metadata equals the cached
metadata, copy the cached parameters out (`params = this->parent->pars`)
without running the kernel; otherwise reset all readiness flags
(`resetCalculation`), run `PRISM01_calcPotential`, store the parameters back
(`this->parent->pars = params`) and mark the potential ready.  The parent
window's flag bookkeeping (`resetCalculation`, the flag set by
`potentialReceived`) is not under src/ and follows the spec's CacheState
invariant. -/
def runPotentialStage (kernel : Metadata → Int) (st : CacheState) (m : Metadata) :
    StageResult :=
  if st.potentialReady = true ∧ st.storedMeta = m then
    { state := st, artifact := st.storedPot, kernelCalls := 0 }
  else
    let a := kernel m
    { state := { potentialReady := true, scompactReady := false,
                 storedMeta := m, storedPot := a },
      artifact := a, kernelCalls := 1 }

end StageCache

namespace PassLoop

/-- The metadata fields the frozen-phonon loop manipulates. -/
structure Meta3 where
  randomSeed : Nat
  fpNum : Nat
  numFP : Nat
  deriving DecidableEq, Repr

/-- The two metadata objects alive at the top of each frozen-phonon loop
iteration: the function-scope `params.meta` (from pass 0) and the thread
member `meta`. -/
structure LoopState where
  outerParamsMeta : Meta3
  threadMeta : Meta3
  deriving DecidableEq, Repr

/-- One iteration prefix of the frozen-phonon loop, embedding
`prism_qthreads.cpp` lines 389-398 (identically lines 527-537):
`params.meta.randomSeed = rand() % 100000` writes the freshly drawn seed into
the function-scope `params` (the name `params` is only shadowed from line 393
on), `++meta.fpNum` bumps the thread metadata's pass counter, and the inner
`Parameters params(meta, progressbar)` constructs the new pass's parameters
from the thread metadata `meta`.  Returns the updated pair of metadata
objects together with the metadata value the inner pass is constructed
from. -/
def fpLoopIter (freshSeed : Nat) (st : LoopState) : LoopState × Meta3 :=
  let outer := { st.outerParamsMeta with randomSeed := freshSeed }
  let thread := { st.threadMeta with fpNum := st.threadMeta.fpNum + 1 }
  ({ outerParamsMeta := outer, threadMeta := thread }, thread)

end PassLoop

namespace FrozenPass

/-- A stage output tensor, flattened to its element list.  Elements are
exact rationals standing for the floating-point values. -/
abbrev Tensor := List ℚ

/-- Elementwise `net_output += params.output`. -/
def addInto (net v : Tensor) : Tensor := List.zipWith (fun a b => a + b) net v

/-- The frozen-configuration accumulation of `prism_qthreads.cpp` lines
381-413 (identically lines 520-552): pass 0's output initializes the running
sum (`Array4D net_output(params.output)`), each later pass's output is added
in elementwise (`net_output += params.output`), and after the loop every
element is divided by `numFP` (`for (auto &i : net_output) i /= numFP`). -/
def accumulate (passes : List Tensor) (numFP : ℚ) : Tensor :=
  match passes with
  | [] => []
  | v0 :: rest => (rest.foldl addInto v0).map (fun x => x / numFP)

end FrozenPass

namespace Crop4D

/-- Count of leading frequency samples strictly below the cutoff, embedding
the scan of `fileIO.cpp` lines 87-97 (and 99-109): walk the axis from index
zero, increment while `pars.qx.at(i) < qMax`, break at the first sample not
below the cutoff. -/
def countBelow (qMax : ℚ) : List ℚ → Nat
  | [] => 0
  | q :: rest => if q < qMax then countBelow qMax rest + 1 else 0

/-- The cropped frequency-axis extent after the doubling `qxInd_max *= 2` of
`fileIO.cpp` line 111. -/
def croppedExtent (qMax : ℚ) (qs : List ℚ) : Nat := 2 * countBelow qMax qs

end Crop4D

namespace Uncropped4D

/-- The two output modes selected by `pars.meta.algorithm`. -/
inductive Algorithm
  | PRISM
  | Multislice
  deriving DecidableEq, Repr

/-- The four quantities computed by the crop-disabled branch of
`setup4DOutput`. -/
structure QDims where
  qxInd_max : Nat
  qyInd_max : Nat
  offset_qx : Nat
  offset_qy : Nat
  deriving DecidableEq, Repr

/-- The crop-disabled branch of `setup4DOutput`, `fileIO.cpp` lines 117-133:
in Multislice mode the frequency extents are half the probe array's extents
(`psiProbeInit.get_dimi() / 2`) with the frequency-domain origin recentered
to a quarter offset (`psiProbeInit.get_dimi() / 4`); otherwise (PRISM) the
extents are the full sampled frequency axes (`pars.qx.get_dimi()`) with zero
offset. -/
def uncroppedDims (alg : Algorithm) (qxLen qyLen probeDimi probeDimj : Nat) : QDims :=
  if alg = Algorithm.Multislice then
    { qxInd_max := probeDimi / 2, qyInd_max := probeDimj / 2,
      offset_qx := probeDimi / 4, offset_qy := probeDimj / 4 }
  else
    { qxInd_max := qxLen, qyInd_max := qyLen, offset_qx := 0, offset_qy := 0 }

end Uncropped4D

namespace Write4D

/-- Extents of the hyperslab region being written, `mdims[0..3]` of
`writeDatacube4D`. -/
structure Region where
  d1 : Nat
  d2 : Nat
  d3 : Nat
  d4 : Nat
  deriving DecidableEq, Repr

/-- Total element count of the region,
`mdims[0] * mdims[1] * mdims[2] * mdims[3]`. -/
def Region.total (r : Region) : Nat := r.d1 * r.d2 * r.d3 * r.d4

/-- Contents of `finalBuffer` after the divide and restride loops of
`fileIO.cpp` lines 657-669: the divide loop scales every incoming element by
`1 / numFP`; the restride loop assigns, for `i < d3` and `j < d4`, entry
`i * d4 + j` from the scaled buffer entry `j * d3 + i` — exactly the linear
indices below `d3 * d4`.  Every other entry of the freshly malloc'd buffer
keeps whatever `junk` the allocation happened to contain. -/
def finalBuffer (r : Region) (junk buffer : Nat → ℚ) (numFP : ℚ) : Nat → ℚ :=
  fun k =>
    if k < r.d3 * r.d4 then buffer ((k % r.d4) * r.d3 + k / r.d4) / numFP
    else junk k

/-- Content written back to the dataset region, `fileIO.cpp` lines 672-678:
the existing on-disk content of the region is read into `readBuffer` and
added elementwise into `finalBuffer`, and the sum is written back. -/
def writtenContent (r : Region) (junk disk buffer : Nat → ℚ) (numFP : ℚ) : Nat → ℚ :=
  fun k => finalBuffer r junk buffer numFP k + disk k

/-- The observable store operations of one `writeDatacube4D` call. -/
inductive Ev
  | lockAcquire
  | readRegion
  | writeRegion
  | flush
  | lockRelease
  deriving DecidableEq, Repr

/-- Order of operations in `writeDatacube4D`: the `unique_lock` on
`write4D_lock` is taken first (line 645), the region is read (line 673),
the sum is written back (line 678), the dataset, group and file are flushed
(lines 682-686), and the lock is released last (line 688); so the lock is
held across the whole read-modify-write and the flush precedes the
return. -/
def write4DTrace : List Ev :=
  [Ev.lockAcquire, Ev.readRegion, Ev.writeRegion, Ev.flush, Ev.lockRelease]

end Write4D

namespace VDS

/-- New rank of the virtual dataset: the length of the first index tuple,
`indices[0].size()` (`fileIO.cpp` line 1319). -/
def newRank (indices : List (List Nat)) : Nat := (indices.headD []).length

/-- Running maximum of the index values observed along new axis `j` across
all sources, embedding the `max_dims` loop of `fileIO.cpp` lines
1320-1327. -/
def maxDimAt (indices : List (List Nat)) (j : Nat) : Nat :=
  indices.foldl (fun acc tup => max acc (tup.getD j 0)) 0

/-- Extents of the synthesized virtual dataset (`fileIO.cpp` lines
1330-1348): the first source's per-axis extents (`dims_out`, read from
`datasets[0].getSpace()`) followed, for each new axis, by the observed
maximum index plus one (`max_dims[j] + 1`). -/
def vdsDims (dims0 : List Nat) (indices : List (List Nat)) : List Nat :=
  dims0 ++ (List.range (newRank indices)).map (fun j => maxDimAt indices j + 1)

/-- Hyperslab selection in the virtual dataspace onto which one source's
full extent is mapped (`fileIO.cpp` lines 1357-1367): offset 0 and the full
original extent on every original axis (`mdims_ind[i] = dims_out[i]`),
offset `indices[i][j]` and count 1 on every new axis.  Returned as the pair
of the offset and count arrays. -/
def sourceSelection (dims0 : List Nat) (indices : List (List Nat)) (tup : List Nat) :
    List Nat × List Nat :=
  (List.replicate dims0.length 0 ++
      (List.range (newRank indices)).map (fun j => tup.getD j 0),
   dims0 ++ List.replicate (newRank indices) 1)

/-- Result of the stitcher: the synthesized extents and, in source order,
the virtual-space selection each source's full extent is mapped onto. -/
structure StitchOutput where
  dims : List Nat
  mappings : List (List Nat × List Nat)
  deriving DecidableEq, Repr

/-- Observable outcome of `writeVirtualDataSet` (`fileIO.cpp` lines
1313-1378).  The body reads extents only from the first source
(`datasets[0].getSpace()`, line 1330), contains no comparison of the
sources' ranks or per-axis extents and no failure raise of its own, and
only reads the sources while creating the new dataset; accordingly the
embedding is total and always returns an ok value. -/
def stitch (srcDims : List (List Nat)) (indices : List (List Nat)) :
    Except Unit StitchOutput :=
  Except.ok
    { dims := vdsDims (srcDims.headD []) indices,
      mappings := indices.map (fun tup => sourceSelection (srcDims.headD []) indices tup) }

/-- Specification-side predicate of the stitching precondition: all source
datasets share identical rank and per-axis extent. -/
def sharesSchema (srcDims : List (List Nat)) : Bool :=
  srcDims.all (fun d => d == srcDims.headD [])

end VDS

namespace Preflight

/-- State of the output path before a run: whether the location is
accessible and writable, and the bytes of the file already there, if any. -/
structure PathState where
  accessible : Bool
  existing : Option (List Nat)
  deriving DecidableEq, Repr

/-- Modelled from the spec: `Prismatic::testFilenameOutput` is called from
`prism_qthreads.cpp` but not defined under src/.  Per the spec's three
pre-flight outcomes it classifies the output path: 0 for an inaccessible
location (bad path/permissions), 2 for an existing target, 1 for a usable
location where no file exists yet. -/
def testFilenameOutput (p : PathState) : Nat :=
  if p.accessible = false then 0
  else if p.existing.isSome then 2 else 1

/-- Observable outcome of the pre-flight prologue of a full run. -/
structure RunStart where
  aborted : Bool
  diagnostic : Bool
  warned : Bool
  lockAcquired : Bool
  fileAfter : Option (List Nat)
  deriving DecidableEq, Repr

/-- Pre-flight prologue of `FullPRISMCalcThread::run`, `prism_qthreads.cpp`
lines 324-347 (identically `FullMultisliceCalcThread::run`, lines 460-485):
if `testFilenameOutput` is falsy, print a diagnostic and return; if it
returns 2, emit the overwrite warning and either delete the existing file
and proceed (caller accepted) or return with the file untouched (caller
declined).  The calculation lock is acquired only after the check, in the
proceeding cases, so no abort path holds it. -/
def preflight (p : PathState) (confirmOverwrite : Bool) : RunStart :=
  if testFilenameOutput p = 0 then
    { aborted := true, diagnostic := true, warned := false,
      lockAcquired := false, fileAfter := p.existing }
  else if testFilenameOutput p = 2 then
    if confirmOverwrite then
      { aborted := false, diagnostic := false, warned := true,
        lockAcquired := true, fileAfter := none }
    else
      { aborted := true, diagnostic := false, warned := true,
        lockAcquired := false, fileAfter := p.existing }
  else
    { aborted := false, diagnostic := false, warned := false,
      lockAcquired := true, fileAfter := p.existing }

end Preflight

theorem addInto_length (net v : FrozenPass.Tensor) (h : v.length = net.length) :
    (FrozenPass.addInto net v).length = net.length := by
  simp [FrozenPass.addInto, h]

theorem addInto_getD (net v : FrozenPass.Tensor) (i : Nat)
    (hi : i < net.length) (h : v.length = net.length) :
    (FrozenPass.addInto net v).getD i 0 = net.getD i 0 + v.getD i 0 := by
  have hlen : (FrozenPass.addInto net v).length = net.length := addInto_length net v h
  rw [List.getD_eq_getElem _ _ (hlen ▸ hi), List.getD_eq_getElem _ _ hi,
    List.getD_eq_getElem _ _ (h ▸ hi)]
  simp [FrozenPass.addInto]

theorem foldl_addInto_length (l : List FrozenPass.Tensor) (acc : FrozenPass.Tensor)
    (hl : ∀ v ∈ l, v.length = acc.length) :
    (l.foldl FrozenPass.addInto acc).length = acc.length := by
  induction l generalizing acc with
  | nil => rfl
  | cons v rest ih =>
      have hv : v.length = acc.length := hl v (List.mem_cons_self _ _)
      have hlen : (FrozenPass.addInto acc v).length = acc.length := addInto_length acc v hv
      have := ih (FrozenPass.addInto acc v)
        (fun w hw => by rw [hlen]; exact hl w (List.mem_cons_of_mem _ hw))
      simpa [hlen] using this

theorem foldl_addInto_getD (l : List FrozenPass.Tensor) (acc : FrozenPass.Tensor)
    (i : Nat) (hi : i < acc.length) (hl : ∀ v ∈ l, v.length = acc.length) :
    (l.foldl FrozenPass.addInto acc).getD i 0 =
      acc.getD i 0 + (l.map (fun v => v.getD i 0)).sum := by
  induction l generalizing acc with
  | nil => simp
  | cons v rest ih =>
      have hv : v.length = acc.length := hl v (List.mem_cons_self _ _)
      have hlen : (FrozenPass.addInto acc v).length = acc.length := addInto_length acc v hv
      have hrec := ih (FrozenPass.addInto acc v) (hlen ▸ hi)
        (fun w hw => by rw [hlen]; exact hl w (List.mem_cons_of_mem _ hw))
      simp only [List.foldl_cons, hrec, List.map_cons, List.sum_cons]
      rw [addInto_getD acc v i hi hv]
      ring

/-- C2: with one tensor per pass, all of one length, the frozen-configuration
accumulation keeps that length and every element of the result is the sum of
the per-pass elements divided by the pass count: the elementwise arithmetic
mean of the per-pass outputs. -/
theorem C2_accumulate_mean (passes : List FrozenPass.Tensor) (numFP : ℚ) (L : Nat)
    (hne : passes ≠ []) (hN : numFP = (passes.length : ℚ))
    (hlen : ∀ v ∈ passes, v.length = L) :
    (FrozenPass.accumulate passes numFP).length = L ∧
    ∀ i, i < L →
      (FrozenPass.accumulate passes numFP).getD i 0 =
        (passes.map (fun v => v.getD i 0)).sum / numFP := by
  match passes, hne with
  | v0 :: rest, _ =>
      have hv0 : v0.length = L := hlen v0 (List.mem_cons_self _ _)
      have hrest : ∀ v ∈ rest, v.length = v0.length := by
        intro v hv; rw [hv0]; exact hlen v (List.mem_cons_of_mem _ hv)
      have hfl : (rest.foldl FrozenPass.addInto v0).length = v0.length :=
        foldl_addInto_length rest v0 hrest
      constructor
      · simp [FrozenPass.accumulate, hfl, hv0]
      · intro i hi
        have hi0 : i < v0.length := hv0 ▸ hi
        have hif : i < (rest.foldl FrozenPass.addInto v0).length := hfl ▸ hi0
        have hmap : (FrozenPass.accumulate (v0 :: rest) numFP).getD i 0 =
            (rest.foldl FrozenPass.addInto v0).getD i 0 / numFP := by
          simp only [FrozenPass.accumulate]
          rw [List.getD_eq_getElem _ _ (by simpa using hif),
            List.getD_eq_getElem _ _ hif]
          simp
        rw [hmap, foldl_addInto_getD rest v0 i hi0 hrest]
        simp [List.sum_cons]

/-- Witness for C2: three passes of two-element tensors average elementwise. -/
theorem C2_accumulate_mean_witness :
    (FrozenPass.accumulate [[2, 10], [4, 20], [6, 30]] 3).getD 0 0 =
      ([[2, 10], [4, 20], [6, 30]].map
        (fun v : FrozenPass.Tensor => v.getD 0 0)).sum / 3 :=
  (C2_accumulate_mean [[2, 10], [4, 20], [6, 30]] 3 2 (by decide) (by norm_num)
    (by intro v hv; fin_cases hv <;> rfl)).2 0 (by decide)

theorem countBelow_eq (qMax : ℚ) (qs : List ℚ) (k : Nat) (hk : k ≤ qs.length)
    (hbelow : ∀ i, i < k → qs.getD i 0 < qMax)
    (hstop : k = qs.length ∨ ¬ qs.getD k 0 < qMax) :
    Crop4D.countBelow qMax qs = k := by
  induction qs generalizing k with
  | nil =>
      have : k = 0 := Nat.le_zero.mp hk
      simp [Crop4D.countBelow, this]
  | cons q rest ih =>
      cases k with
      | zero =>
          rcases hstop with h | h
          · exact absurd h.symm (by simp)
          · simp only [List.getD_cons_zero] at h
            simp [Crop4D.countBelow, h]
      | succ k =>
          have hq : q < qMax := by
            have := hbelow 0 (Nat.succ_pos _)
            simpa using this
          have hrec : Crop4D.countBelow qMax rest = k := by
            refine ih k (by simpa using hk) ?_ ?_
            · intro i hi
              have := hbelow (i + 1) (Nat.succ_lt_succ hi)
              simpa using this
            · rcases hstop with h | h
              · left; simpa using h
              · right; simpa using h
          simp [Crop4D.countBelow, hq, hrec]

/-- C5: if the frequency axis has exactly `k` contiguous samples strictly
below `qMax` starting from index zero, the cropped extent equals `2 * k`. -/
theorem C5_cropped_extent (qMax : ℚ) (qs : List ℚ) (k : Nat) (hk : k ≤ qs.length)
    (hbelow : ∀ i, i < k → qs.getD i 0 < qMax)
    (hstop : k = qs.length ∨ ¬ qs.getD k 0 < qMax) :
    Crop4D.croppedExtent qMax qs = 2 * k := by
  unfold Crop4D.croppedExtent
  rw [countBelow_eq qMax qs k hk hbelow hstop]

/-- Witness for C5: an axis with exactly 3 samples below the cutoff 4 gets
cropped extent 6. -/
theorem C5_cropped_extent_witness :
    Crop4D.croppedExtent 4 [0, 1, 2, 5, 6] = 2 * 3 :=
  C5_cropped_extent 4 [0, 1, 2, 5, 6] 3 (by decide)
    (by intro i hi; interval_cases i <;> norm_num)
    (by right; norm_num)

/-- C1: if the readiness flag is set and the stored metadata equals `m`, the
stage returns the cached artifact with zero kernel invocations; and from any
state not already warm for `m`, two sequential runs with `m` invoke the
kernel exactly once, the second returning the same artifact as the first. -/
theorem C1_cache_reuse (kernel : StageCache.Metadata → Int)
    (st : StageCache.CacheState) (m : StageCache.Metadata)
    (hcold : ¬(st.potentialReady = true ∧ st.storedMeta = m)) :
    (∀ st2 : StageCache.CacheState, st2.potentialReady = true → st2.storedMeta = m →
        StageCache.runPotentialStage kernel st2 m =
          { state := st2, artifact := st2.storedPot, kernelCalls := 0 }) ∧
    (StageCache.runPotentialStage kernel st m).kernelCalls +
      (StageCache.runPotentialStage kernel
          (StageCache.runPotentialStage kernel st m).state m).kernelCalls = 1 ∧
    (StageCache.runPotentialStage kernel
        (StageCache.runPotentialStage kernel st m).state m).artifact =
      (StageCache.runPotentialStage kernel st m).artifact := by
  refine ⟨fun st2 h1 h2 => ?_, ?_, ?_⟩
  · simp [StageCache.runPotentialStage, h1, h2]
  · simp [StageCache.runPotentialStage, hcold]
  · simp [StageCache.runPotentialStage, hcold]

/-- Witness for C1 at a concrete cold cache state. -/
theorem C1_cache_reuse_witness :
    (StageCache.runPotentialStage (fun m => Int.ofNat m.randomSeed)
        { potentialReady := false, scompactReady := false,
          storedMeta := { randomSeed := 0, fpNum := 0, otherParams := 0 },
          storedPot := 0 }
        { randomSeed := 7, fpNum := 0, otherParams := 1 }).kernelCalls +
      (StageCache.runPotentialStage (fun m => Int.ofNat m.randomSeed)
        (StageCache.runPotentialStage (fun m => Int.ofNat m.randomSeed)
          { potentialReady := false, scompactReady := false,
            storedMeta := { randomSeed := 0, fpNum := 0, otherParams := 0 },
            storedPot := 0 }
          { randomSeed := 7, fpNum := 0, otherParams := 1 }).state
        { randomSeed := 7, fpNum := 0, otherParams := 1 }).kernelCalls = 1 :=
  (C1_cache_reuse (fun m => Int.ofNat m.randomSeed)
    { potentialReady := false, scompactReady := false,
      storedMeta := { randomSeed := 0, fpNum := 0, otherParams := 0 },
      storedPot := 0 }
    { randomSeed := 7, fpNum := 0, otherParams := 1 }
    (by decide)).2.1

/-- C3: the metadata the pass-i parameters are constructed from carries the
thread metadata's original random seed, not the freshly drawn one; only the
pass counter changes.  At the concrete failing input (base seed 7, fresh
draw 42) the constructed metadata's seed is 7, so the fresh draw is
discarded, contradicting the claim that each pass runs with a freshly drawn
seed. -/
theorem C3_seed_not_refreshed :
    (∀ (freshSeed : Nat) (st : PassLoop.LoopState),
        (PassLoop.fpLoopIter freshSeed st).2.randomSeed = st.threadMeta.randomSeed ∧
        (PassLoop.fpLoopIter freshSeed st).2.fpNum = st.threadMeta.fpNum + 1) ∧
    (PassLoop.fpLoopIter 42
        { outerParamsMeta := { randomSeed := 7, fpNum := 0, numFP := 2 },
          threadMeta := { randomSeed := 7, fpNum := 0, numFP := 2 } }).2 =
      { randomSeed := 7, fpNum := 1, numFP := 2 } := by
  exact ⟨fun freshSeed st => ⟨rfl, rfl⟩, rfl⟩

/-- C6 counterexample: with cropping disabled, a Multislice-mode probe array
of extent 8 yields a declared frequency-axis extent of 4 (half of 8), not
the quarter extent 8 / 4 = 2 the claim states. -/
theorem C6_counterexample :
    (Uncropped4D.uncroppedDims Uncropped4D.Algorithm.Multislice 16 16 8 8).qxInd_max ≠
      8 / 4 := by
  decide

/-- C6 amended: with cropping disabled, PRISM mode declares the full sampled
frequency axes with zero offset, and Multislice mode declares half the probe
array's extent along each frequency axis with the origin recentered to a
one-quarter offset. -/
theorem C6_uncropped_extents (qxLen qyLen probeDimi probeDimj : Nat) :
    Uncropped4D.uncroppedDims Uncropped4D.Algorithm.PRISM qxLen qyLen probeDimi probeDimj =
      { qxInd_max := qxLen, qyInd_max := qyLen, offset_qx := 0, offset_qy := 0 } ∧
    Uncropped4D.uncroppedDims Uncropped4D.Algorithm.Multislice qxLen qyLen probeDimi probeDimj =
      { qxInd_max := probeDimi / 2, qyInd_max := probeDimj / 2,
        offset_qx := probeDimi / 4, offset_qy := probeDimj / 4 } := by
  exact ⟨rfl, rfl⟩

/-- C4 counterexample: for a region whose leading extent is 2, the content
written is not everywhere the prior on-disk content plus the transposed
scaled buffer — at linear index 1 the write emits the junk left in the
uninitialized allocation (here 42) instead of the claimed value 0. -/
theorem C4_counterexample :
    ¬ (∀ k, k < Write4D.Region.total { d1 := 2, d2 := 1, d3 := 1, d4 := 1 } →
        Write4D.writtenContent { d1 := 2, d2 := 1, d3 := 1, d4 := 1 }
            (fun _ => 42) (fun _ => 0) (fun _ => 0) 1 k =
          (fun _ : Nat => (0 : ℚ)) k +
            (fun _ : Nat => (0 : ℚ)) ((k % 1) * 1 + k / 1) / 1) := by
  intro h
  have h1 := h 1 (by decide)
  simp [Write4D.writtenContent, Write4D.finalBuffer] at h1

/-- C4 amended: when the region's two leading extents are both 1 (a single
scan position per call), the content written to the target region equals the
prior on-disk content plus, elementwise, the incoming buffer divided by the
total pass count with its trailing two axes transposed; and the store-wide
write lock is acquired first, the read-modify-write and flush happen under
it, and it is released last. -/
theorem C4_rmw_under_lock (r : Write4D.Region) (junk disk buffer : Nat → ℚ)
    (numFP : ℚ) (h1 : r.d1 = 1) (h2 : r.d2 = 1) :
    (∀ k, k < r.total →
        Write4D.writtenContent r junk disk buffer numFP k =
          disk k + buffer ((k % r.d4) * r.d3 + k / r.d4) / numFP) ∧
    Write4D.write4DTrace =
      [Write4D.Ev.lockAcquire, Write4D.Ev.readRegion, Write4D.Ev.writeRegion,
       Write4D.Ev.flush, Write4D.Ev.lockRelease] := by
  refine ⟨fun k hk => ?_, rfl⟩
  have htot : r.total = r.d3 * r.d4 := by
    simp [Write4D.Region.total, h1, h2]
  rw [htot] at hk
  simp [Write4D.writtenContent, Write4D.finalBuffer, hk]
  ring

/-- Witness for C4 at a concrete single-scan-position region. -/
theorem C4_rmw_under_lock_witness :
    Write4D.writtenContent { d1 := 1, d2 := 1, d3 := 2, d4 := 2 }
        (fun _ => 99) (fun k => (k : ℚ)) (fun k => (k : ℚ)) 2 3 =
      (fun k : Nat => (k : ℚ)) 3 +
        (fun k : Nat => (k : ℚ)) ((3 % 2) * 2 + 3 / 2) / 2 :=
  (C4_rmw_under_lock { d1 := 1, d2 := 1, d3 := 2, d4 := 2 }
    (fun _ => 99) (fun k => (k : ℚ)) (fun k => (k : ℚ)) 2 rfl rfl).1 3 (by decide)

/-- C10: the restride loop assigns only the first `d3 * d4` entries of the
freshly allocated output buffer, every later entry keeping the junk the
allocation contained; and under the implicit precondition that the region's
two leading extents are both 1, the junk never reaches the written region,
so the read-modify-write result is independent of the uninitialized
contents. -/
theorem C10_uninitialized_tail (r : Write4D.Region) (junk junk2 disk buffer : Nat → ℚ)
    (numFP : ℚ) :
    (∀ k, r.d3 * r.d4 ≤ k →
        Write4D.finalBuffer r junk buffer numFP k = junk k) ∧
    (r.d1 = 1 → r.d2 = 1 → ∀ k, k < r.total →
        Write4D.writtenContent r junk disk buffer numFP k =
          Write4D.writtenContent r junk2 disk buffer numFP k) := by
  constructor
  · intro k hk
    simp [Write4D.finalBuffer, Nat.not_lt.mpr hk]
  · intro h1 h2 k hk
    have htot : r.total = r.d3 * r.d4 := by
      simp [Write4D.Region.total, h1, h2]
    rw [htot] at hk
    simp [Write4D.writtenContent, Write4D.finalBuffer, hk]

/-- Witness for C10: at a region with leading extent 2, index 1 of the
final buffer is the junk value 5 left by the allocation. -/
theorem C10_uninitialized_tail_witness :
    Write4D.finalBuffer { d1 := 2, d2 := 1, d3 := 1, d4 := 1 }
        (fun _ => 5) (fun _ => 0) 1 1 = (fun _ : Nat => (5 : ℚ)) 1 :=
  (C10_uninitialized_tail { d1 := 2, d2 := 1, d3 := 1, d4 := 1 }
    (fun _ => 5) (fun _ => 7) (fun _ => 0) (fun _ => 0) 1).1 1 (by decide)

theorem foldl_max_init_le (l : List (List Nat)) (j m : Nat) :
    m ≤ l.foldl (fun acc tup => max acc (tup.getD j 0)) m := by
  induction l generalizing m with
  | nil => exact le_refl m
  | cons u rest ih =>
      rw [List.foldl_cons]
      exact le_trans (le_max_left _ _) (ih (max m (u.getD j 0)))

theorem getD_le_foldl_max (l : List (List Nat)) (j m : Nat) (t : List Nat)
    (ht : t ∈ l) :
    t.getD j 0 ≤ l.foldl (fun acc tup => max acc (tup.getD j 0)) m := by
  induction l generalizing m with
  | nil => cases ht
  | cons u rest ih =>
      rw [List.foldl_cons]
      rcases List.mem_cons.mp ht with h | h
      · subst h
        exact le_trans (le_max_right _ _) (foldl_max_init_le rest j _)
      · exact ih _ h

theorem foldl_max_cases (l : List (List Nat)) (j m : Nat) :
    (∃ t ∈ l, l.foldl (fun acc tup => max acc (tup.getD j 0)) m = t.getD j 0) ∨
      l.foldl (fun acc tup => max acc (tup.getD j 0)) m = m := by
  induction l generalizing m with
  | nil => right; rfl
  | cons u rest ih =>
      rw [List.foldl_cons]
      rcases ih (max m (u.getD j 0)) with ⟨t, ht, heq⟩ | heq
      · exact Or.inl ⟨t, List.mem_cons_of_mem _ ht, heq⟩
      · rcases Nat.le_total m (u.getD j 0) with h | h
        · refine Or.inl ⟨u, List.mem_cons_self _ _, ?_⟩
          rw [heq, Nat.max_eq_right h]
        · right
          rw [heq, Nat.max_eq_left h]

theorem maxDimAt_attained (l : List (List Nat)) (j : Nat) (hne : l ≠ []) :
    ∃ t ∈ l, VDS.maxDimAt l j = t.getD j 0 := by
  rcases foldl_max_cases l j 0 with h | h
  · exact h
  · obtain ⟨t0, rest, rfl⟩ := List.exists_cons_of_ne_nil hne
    refine ⟨t0, List.mem_cons_self _ _, ?_⟩
    have hle : t0.getD j 0 ≤ VDS.maxDimAt (t0 :: rest) j :=
      getD_le_foldl_max _ j 0 t0 (List.mem_cons_self _ _)
    have hz : VDS.maxDimAt (t0 :: rest) j = 0 := h
    omega

theorem range_map_getD (t : List Nat) :
    (List.range t.length).map (fun j => t.getD j 0) = t := by
  apply List.ext_getElem
  · simp
  · intro i h1 h2
    simp [List.getElem?_eq_getElem h2]

/-- C7: for a stitch over a nonempty family of index tuples of common length
`m` and a first source of extents `dims0`, the synthesized dataset has rank
`dims0.length + m`, keeps `dims0` on the original axes, has extent one plus
the maximum observed index along each new axis (the maximum dominates every
observed index and is attained by one of them), and maps each source's full
original extent onto the one-element hyperslab at its index tuple. -/
theorem C7_stitch_dims (dims0 : List Nat) (indices : List (List Nat)) (m : Nat)
    (hne : indices ≠ []) (hlen : ∀ t ∈ indices, t.length = m) :
    (VDS.vdsDims dims0 indices).length = dims0.length + m ∧
    (∀ i, i < dims0.length →
        (VDS.vdsDims dims0 indices).getD i 0 = dims0.getD i 0) ∧
    (∀ j, j < m →
        (VDS.vdsDims dims0 indices).getD (dims0.length + j) 0 =
          VDS.maxDimAt indices j + 1 ∧
        (∀ t ∈ indices, t.getD j 0 ≤ VDS.maxDimAt indices j) ∧
        (∃ t ∈ indices, VDS.maxDimAt indices j = t.getD j 0)) ∧
    (∀ t ∈ indices, VDS.sourceSelection dims0 indices t =
        (List.replicate dims0.length 0 ++ t, dims0 ++ List.replicate m 1)) := by
  have hrank : VDS.newRank indices = m := by
    obtain ⟨t0, rest, rfl⟩ := List.exists_cons_of_ne_nil hne
    exact hlen t0 (List.mem_cons_self _ _)
  refine ⟨?_, ?_, ?_, ?_⟩
  · simp [VDS.vdsDims, hrank]
  · intro i hi
    exact List.getD_append _ _ _ _ hi
  · intro j hj
    refine ⟨?_, fun t ht => getD_le_foldl_max indices j 0 t ht,
      maxDimAt_attained indices j hne⟩
    rw [VDS.vdsDims, List.getD_append_right _ _ _ _ (Nat.le_add_right _ _)]
    have hsub : dims0.length + j - dims0.length = j := by omega
    rw [hsub, List.getD_eq_getElem _ _ (by simp [hrank, hj])]
    simp
  · intro t ht
    have htl : t.length = m := hlen t ht
    unfold VDS.sourceSelection
    rw [hrank, ← htl, range_map_getD]

/-- Witness for C7 on the four-source depth series with shape (8, 8): the
extent along the new axis is the maximum observed index 3 plus one. -/
theorem C7_stitch_dims_witness :
    (VDS.vdsDims [8, 8] [[0], [1], [2], [3]]).getD
        (([8, 8] : List Nat).length + 0) 0 =
      VDS.maxDimAt [[0], [1], [2], [3]] 0 + 1 :=
  ((C7_stitch_dims [8, 8] [[0], [1], [2], [3]] 1 (by decide)
      (by intro t ht; fin_cases ht <;> rfl)).2.2.1 0 (by decide)).1

/-- C8 counterexample: two sources of different per-axis extents ([2, 3] and
[4, 5]) do not share a schema, yet the stitch succeeds, returning a virtual
dataset laid out from the first source's extents — no schema-mismatch
failure is raised. -/
theorem C8_counterexample :
    VDS.sharesSchema [[2, 3], [4, 5]] = false ∧
    VDS.stitch [[2, 3], [4, 5]] [[0], [1]] =
      Except.ok
        { dims := [2, 3, 2],
          mappings := [([0, 0, 0], [2, 3, 1]), ([0, 0, 1], [2, 3, 1])] } := by
  exact ⟨rfl, rfl⟩

/-- C8 amended: the stitcher performs no rank/extent validation and never
itself raises a schema-mismatch failure: every stitch returns an ok value,
and the result depends on the sources only through the first source's
extents, so mismatched later sources are mapped unchecked (and, being only
read, remain intact). -/
theorem C8_no_schema_validation (srcDims srcDims2 indices : List (List Nat))
    (hhead : srcDims2.headD [] = srcDims.headD []) :
    (∃ out, VDS.stitch srcDims indices = Except.ok out) ∧
    VDS.stitch srcDims2 indices = VDS.stitch srcDims indices := by
  constructor
  · exact ⟨_, rfl⟩
  · unfold VDS.stitch
    rw [hhead]

/-- Witness for C8: two source families agreeing on the first source but
differing on the second produce the same stitch result. -/
theorem C8_no_schema_validation_witness :
    VDS.stitch [[2, 3], [9, 9]] [[0], [1]] =
      VDS.stitch [[2, 3], [4, 5]] [[0], [1]] :=
  (C8_no_schema_validation [[2, 3], [4, 5]] [[2, 3], [9, 9]] [[0], [1]] rfl).2

/-- C9: the pre-flight check has exactly three outcomes: an inaccessible
target aborts with a diagnostic, no lock acquired and the path untouched; an
existing target surfaces the overwrite warning, and on decline the run
aborts with no lock and the existing bytes intact, while on accept the
existing file is deleted and the run proceeds under the lock; a usable fresh
target proceeds under the lock with no warning. -/
theorem C9_preflight_outcomes (p : Preflight.PathState) (confirm : Bool) :
    (p.accessible = false →
      Preflight.preflight p confirm =
        { aborted := true, diagnostic := true, warned := false,
          lockAcquired := false, fileAfter := p.existing }) ∧
    (∀ bytes, p.accessible = true → p.existing = some bytes →
      (confirm = false →
        Preflight.preflight p confirm =
          { aborted := true, diagnostic := false, warned := true,
            lockAcquired := false, fileAfter := some bytes }) ∧
      (confirm = true →
        Preflight.preflight p confirm =
          { aborted := false, diagnostic := false, warned := true,
            lockAcquired := true, fileAfter := none })) ∧
    (p.accessible = true → p.existing = none →
      Preflight.preflight p confirm =
        { aborted := false, diagnostic := false, warned := false,
          lockAcquired := true, fileAfter := none }) := by
  refine ⟨fun ha => ?_, fun bytes ha he => ⟨fun hc => ?_, fun hc => ?_⟩,
    fun ha he => ?_⟩
  · simp [Preflight.preflight, Preflight.testFilenameOutput, ha]
  · subst hc
    simp [Preflight.preflight, Preflight.testFilenameOutput, ha, he]
  · subst hc
    simp [Preflight.preflight, Preflight.testFilenameOutput, ha, he]
  · simp [Preflight.preflight, Preflight.testFilenameOutput, ha, he]

/-- Witness for C9: declining the overwrite of an existing file leaves its
bytes identical and acquires no lock. -/
theorem C9_preflight_outcomes_witness :
    Preflight.preflight { accessible := true, existing := some [1, 2, 3] } false =
      { aborted := true, diagnostic := false, warned := true,
        lockAcquired := false, fileAfter := some [1, 2, 3] } :=
  ((C9_preflight_outcomes { accessible := true, existing := some [1, 2, 3] }
      false).2.1 [1, 2, 3] rfl rfl).1 rfl
